import Mathlib

/-!
Shallow embedding of `src/lib/helpers/request.js` from node-openid-client:
option resolution, DPoP proof injection with a per-origin+path nonce cache,
transport dispatch (HTTP/1.1 vs HTTP/2), the response-vs-timeout race, lazy
memoized body decoding, and the finally-step nonce-cache update.

External collaborators (Node/Web platform builtins and packages outside
`src/`) are abstracted: URL parsing, `JSON.stringify`/`JSON.parse`,
`querystring.stringify` are fields of a `Platform` record; the `defaults`,
`pick` and `lru-cache` helpers, which are required by the source but whose
files are not under `src/`, are modelled from the spec (see their doc
comments).
-/

namespace Req

/-- JS property values as they occur in header/option objects here: a string,
a number, or the `undefined` value (a key present whose value is `undefined`). -/
inductive HVal
  | undef
  | s (v : String)
  | n (v : Nat)
deriving DecidableEq, Repr

/-- A JS object used as a header map: ordered key/value entries. JS objects
preserve insertion order and cannot hold duplicate keys. -/
abbrev HeadersObj := List (String × HVal)

/-- JS property read `h[k]`: the first entry with the key. -/
def hGet : HeadersObj → String → Option HVal
  | [], _ => none
  | (k', v) :: t, k => if k' = k then some v else hGet t k

/-- `h[k] === undefined` holds in JS both when the key is absent and when it
is present with value `undefined`. -/
def undefAt (o : Option HVal) : Bool :=
  match o with
  | none => true
  | some .undef => true
  | some _ => false

/-- Replace the value stored under a key, keeping entry positions. -/
def hReplace : HeadersObj → String → HVal → HeadersObj
  | [], _, _ => []
  | (k', v') :: t, k, v =>
    if k' = k then (k, v) :: hReplace t k v else (k', v') :: hReplace t k v

/-- JS property write `h[k] = v`: replace in place when the key exists
(keeping its position), otherwise append. -/
def hAssign (h : HeadersObj) (k : String) (v : HVal) : HeadersObj :=
  if (hGet h k).isSome then hReplace h k v else h ++ [(k, v)]

/-- JS `delete h[k]` / `req.removeHeader(k)`. -/
def hRemove : HeadersObj → String → HeadersObj
  | [], _ => []
  | (k', v) :: t, k => if k' = k then hRemove t k else (k', v) :: hRemove t k

/-- Lines 140-144 of `request.js`: drop every header entry whose value is
`undefined`. -/
def cleanHeaders : HeadersObj → HeadersObj
  | [] => []
  | (k, v) :: t => if v = .undef then cleanHeaders t else (k, v) :: cleanHeaders t

/-- A parsed JSON value (the result of `JSON.parse`). -/
inductive Jsonv
  | null
  | bool (b : Bool)
  | num (z : Int)
  | str (v : String)
  | arr (elems : List Jsonv)
  | obj (fields : List (String × Jsonv))
deriving Repr

/-- A parsed WHATWG URL, as produced by `new URL(...)`: the fields of the
platform URL object that `request.js` reads. -/
structure URLRec where
  protocol : String
  origin : String
  pathname : String
  href : String
  searchParams : List (String × String)
deriving DecidableEq, Repr

/-- The option object handed to `request` (and the shape of the process-wide
defaults and of the customization hook's result). All fields optional; `none`
models an absent key (or one holding `undefined`, which `defaults` treats the
same way). -/
structure OptRec where
  url : Option String := none
  method : Option String := none
  headers : Option HeadersObj := none
  timeout : Option Nat := none
  http2 : Option Bool := none
  pfx : Option String := none
  key : Option String := none
  cert : Option String := none
  ca : Option String := none
  crl : Option String := none
  passphrase : Option String := none
  agent : Option String := none
  lookup : Option String := none
  searchParams : Option (List (String × String)) := none
  form : Option (List (String × String)) := none
  json : Option Jsonv := none
  body : Option String := none
  responseType : Option String := none
deriving Repr

/-- First-defined choice between two optional fields, the per-key behaviour
of the `defaults` helper: a later source fills a field only when the earlier
ones left it undefined. -/
def firstDefined (a b : Option α) : Option α :=
  match a with
  | some x => some x
  | none => b

/-- Modelled from the spec: the deep branch of the `defaults` helper
(`lib/helpers/defaults.js` is required by `request.js` but is not under
`src/`). For two plain objects it walks the source's entries, skips entries
whose value is `undefined`, and assigns an entry into the target only where
the target's value is still `undefined`; the target object is mutated in
place, so entries of the earlier object win. -/
def defaultsHeaders : HeadersObj → HeadersObj → HeadersObj
  | t, [] => t
  | t, (k, v) :: rest =>
    if v = .undef then defaultsHeaders t rest
    else if undefAt (hGet t k) then defaultsHeaders (hAssign t k v) rest
    else defaultsHeaders t rest

/-- Modelled from the spec: `defaults(deep, target, ...sources)` folded over
two records. Every field of the result is the first defined one, except
`headers`, the only plain-object field in play, which is deep-merged: the
earlier object keeps its entries and is filled with the later object's
defined entries. -/
def defaultsDeep2 (t u : OptRec) : OptRec :=
  { url := firstDefined t.url u.url
    method := firstDefined t.method u.method
    headers :=
      match t.headers, u.headers with
      | some th, some uh => some (defaultsHeaders th uh)
      | some th, none => some th
      | none, x => x
    timeout := firstDefined t.timeout u.timeout
    http2 := firstDefined t.http2 u.http2
    pfx := firstDefined t.pfx u.pfx
    key := firstDefined t.key u.key
    cert := firstDefined t.cert u.cert
    ca := firstDefined t.ca u.ca
    crl := firstDefined t.crl u.crl
    passphrase := firstDefined t.passphrase u.passphrase
    agent := firstDefined t.agent u.agent
    lookup := firstDefined t.lookup u.lookup
    searchParams := firstDefined t.searchParams u.searchParams
    form := firstDefined t.form u.form
    json := firstDefined t.json u.json
    body := firstDefined t.body u.body
    responseType := firstDefined t.responseType u.responseType }

/-- The allow-list of lines 21-33 applied as `pick(o, ...allowed)`. Modelled
from the spec: `lib/helpers/pick.js` is required by `request.js` but is not
under `src/`; `pick` builds a fresh object holding only the named fields. -/
def pickAllowed (o : OptRec) : OptRec :=
  { agent := o.agent, ca := o.ca, cert := o.cert, crl := o.crl,
    headers := o.headers, key := o.key, lookup := o.lookup,
    passphrase := o.passphrase, pfx := o.pfx, timeout := o.timeout,
    http2 := o.http2 }

/-- Line 121: `defaultsDeep({}, userOptions, opts, DEFAULT_HTTP_OPTIONS)`.
`defaults` walks its sources left to right into a fresh target, so the
fold associates to the left and earlier sources take precedence. -/
def resolveOptions (dflts : OptRec) (userOptions : Option OptRec) (callOpts : OptRec) : OptRec :=
  match userOptions with
  | some u => defaultsDeep2 (defaultsDeep2 u callOpts) dflts
  | none => defaultsDeep2 callOpts dflts

/-- The initial `DEFAULT_HTTP_OPTIONS` installed by the module-load call to
`setDefaults` (lines 43-46). The User-Agent string is built from package
metadata; its exact value is immaterial to every claim. -/
def initialDefaults : OptRec :=
  { headers := some [("User-Agent", HVal.s "openid-client")], timeout := some 3500 }

/-- The `NQCHAR` character set of line 19: `[\x21\x23-\x5B\x5D-\x7E]`,
printable ASCII without space, double quote and backslash. -/
def isNQChar (c : Char) : Bool :=
  (c.toNat = 0x21) || (0x23 ≤ c.toNat && c.toNat ≤ 0x5B) || (0x5D ≤ c.toNat && c.toNat ≤ 0x7E)

/-- `NQCHAR.test(s)`: the regex is anchored on both sides and requires at
least one character. -/
def nqcharTest (v : String) : Bool :=
  !v.isEmpty && v.toList.all isNQChar

/-- The module-level `nonces` store. Modelled from the spec: `lru-cache` is
an external package; `get`/`set` behave as a key/value map and no claim
depends on the capacity bound or the eviction order. -/
abbrev NonceCache := List (String × String)

/-- `nonces.get(k)`. -/
def cacheGet : NonceCache → String → Option String
  | [], _ => none
  | (k', v) :: t, k => if k' = k then some v else cacheGet t k

/-- Remove every entry with the key (helper for `cacheSet`). -/
def cacheRemove : NonceCache → String → NonceCache
  | [], _ => []
  | (k', v) :: t, k => if k' = k then cacheRemove t k else (k', v) :: cacheRemove t k

/-- `nonces.set(k, v)`: afterwards `get(k)` yields `v`. -/
def cacheSet (c : NonceCache) (k : String) (v : String) : NonceCache :=
  (k, v) :: cacheRemove c k

/-- The payload handed to `this.dpopProof` (lines 104-108). -/
structure DpopPayload where
  htu : String
  htm : Option String
  nonce : Option String
deriving DecidableEq, Repr

/-- The host capabilities looked up on `this`: the per-call customization
hook `this[HTTP_OPTIONS]` and the proof-generation capability
`this.dpopProof(payload, DPoP, accessToken)`. -/
structure Ctx where
  httpOptions : Option (URLRec → OptRec → OptRec) := none
  dpopProof : Option (DpopPayload → String → Option String → String) := none

/-- The second parameter of `request`: `{ accessToken, mTLS = false, DPoP }`.
`DPoP` carries opaque key material; only its presence (truthiness) matters to
the control flow. -/
structure CallArgs where
  accessToken : Option String := none
  mTLS : Bool := false
  DPoP : Option String := none

/-- Platform builtins used by `request.js`, abstracted as pure functions:
`new URL` (fails on non-absolute input), `JSON.stringify` on the request
payload, and `querystring.stringify`. -/
structure Platform where
  parseURL : String → Option URLRec
  stringify : Jsonv → String
  qsStringify : List (String × String) → String

/-- Errors raised by the engine. Modelled from the spec: `RPError` lives in
`lib/errors.js`, which is not under `src/`; only the error class and the
data the message interpolates are modelled. `invalidURL` is the TypeError
of line 95, `mtlsMissing` of line 124, `unsupportedResponseType` of line
233, `timeoutErr` the RPError of line 186 carrying the configured duration,
and `transport` stands for an underlying stream failure. -/
inductive ReqError
  | invalidURL
  | mtlsMissing
  | unsupportedResponseType
  | timeoutErr (ms : Option Nat)
  | transport
deriving DecidableEq, Repr

/-- The resolved per-request data handed to the dispatcher: the (possibly
searchParams-extended) URL, the destructured body/decode fields of line 138,
and the remaining merged options. -/
structure Prepared where
  url : URLRec
  method : Option String
  headers : HeadersObj
  timeout : Option Nat
  http2 : Bool
  json : Option Jsonv
  form : Option (List (String × String))
  body : Option String
  responseType : Option String
deriving Repr

/-- Outcome of the synchronous prefix of `request` (lines 89-144), together
with the final state of the caller-supplied objects it mutates.
`callerOptions` is the state of the caller's `options` object (and of the
headers object it references) after the call; `mergedAliasesCaller` records
whether the merged options' headers object is the caller's headers object
(reference equality in JS); `proofCalls` lists the invocations of
`this.dpopProof`, in order. -/
structure PrepOut where
  result : Except ReqError Prepared
  callerOptions : OptRec
  mergedAliasesCaller : Bool
  proofCalls : List DpopPayload

/-- Lines 100-112: when `DPoP` is passed and the caller exposes `dpopProof`,
call it with the target URI, the HTTP method and the currently cached nonce
for the origin+path key, and write the produced value into the caller's
headers object under the key `DPoP` (creating the headers object on the
caller's options when absent). -/
def injectDPoP (ctx : Ctx) (args : CallArgs) (nonces : NonceCache) (url0 : URLRec)
    (options1 : OptRec) : OptRec × List DpopPayload :=
  match args.DPoP, ctx.dpopProof with
  | some keyMat, some f =>
    let payload : DpopPayload :=
      { htu := url0.origin ++ url0.pathname
        htm := options1.method
        nonce := cacheGet nonces (url0.origin ++ url0.pathname) }
    ({ options1 with
        headers := some (hAssign (options1.headers.getD []) "DPoP"
          (.s (f payload keyMat args.accessToken))) },
      [payload])
  | _, _ => (options1, [])

/-- Line 117 builds `defaultsDeep({}, opts, DEFAULT_HTTP_OPTIONS)` for the
hook; because `defaults` copies the caller's headers object by reference
into the fresh target and then deep-merges the defaults into it, the
caller's headers object itself gains the defaults' missing entries. -/
def hookMutateCaller (dflts : OptRec) (opts : OptRec) : OptRec :=
  match opts.headers, dflts.headers with
  | some h, some dh => { opts with headers := some (defaultsHeaders h dh) }
  | _, _ => opts

/-- Lines 114-120: the hook, when installed, is called with the parsed URL
and the pre-merged options, and its result is restricted to the allow-list. -/
def userOptionsOf (ctx : Ctx) (dflts : OptRec) (url0 : URLRec) (opts : OptRec) : Option OptRec :=
  match ctx.httpOptions with
  | some f => some (pickAllowed (f url0 (defaultsDeep2 opts dflts)))
  | none => none

/-- Whether the merged options' headers object of line 121 is (by reference)
the caller's headers object: `defaults` assigns the first defined source's
headers object into the fresh target, so this holds exactly when the picked
hook result carries no headers and the caller's options do. -/
def aliasCallerB (userOptions : Option OptRec) (opts : OptRec) : Bool :=
  (match userOptions with
   | some u => u.headers.isNone
   | none => true) && opts.headers.isSome

/-- Lines 127-132: merge `searchParams` into the URL by delete-then-set per
key: same-named parameters are replaced, others preserved in order, the new
value appended. -/
def setParam (ps : List (String × String)) (kv : String × String) : List (String × String) :=
  (ps.filter (fun p => p.1 != kv.1)) ++ [kv]

/-- Apply the `searchParams` option to the URL when present. -/
def mergeSearchParams (url : URLRec) (sps : Option (List (String × String))) : URLRec :=
  match sps with
  | none => url
  | some l => { url with searchParams := l.foldl setParam url.searchParams }

/-- Lines 123-144 applied to the merged options: the mTLS precondition
(line 123-125), searchParams merge, destructuring of the body/decode fields,
and the undefined-header cleanup; when the merged options' headers object
aliases the caller's, the cleanup is visible on the caller's object. -/
def prepareFinish (options3 merged : OptRec) (url0 : URLRec) (proofCalls : List DpopPayload)
    (aliased : Bool) (args : CallArgs) : PrepOut :=
  if args.mTLS ∧ merged.pfx = none ∧ (merged.key = none ∨ merged.cert = none) then
    { result := .error .mtlsMissing, callerOptions := options3,
      mergedAliasesCaller := aliased, proofCalls := proofCalls }
  else
    let cleaned := cleanHeaders (merged.headers.getD [])
    { result := .ok
        { url := mergeSearchParams url0 merged.searchParams, method := merged.method,
          headers := cleaned, timeout := merged.timeout,
          http2 := merged.http2 == some true, json := merged.json, form := merged.form,
          body := merged.body, responseType := merged.responseType }
      callerOptions :=
        if aliased then { options3 with headers := some cleaned } else options3
      mergedAliasesCaller := aliased
      proofCalls := proofCalls }

/-- Lines 100-144 of `request`, after URL validation succeeded: DPoP
injection, hook invocation, option merge, then `prepareFinish`. -/
def prepareChecked (dflts : OptRec) (ctx : Ctx) (nonces : NonceCache) (url0 : URLRec)
    (options1 : OptRec) (args : CallArgs) : PrepOut :=
  let inj := injectDPoP ctx args nonces url0 options1
  let userOptions := userOptionsOf ctx dflts url0 inj.1
  let options3 :=
    match ctx.httpOptions with
    | some _ => hookMutateCaller dflts inj.1
    | none => inj.1
  prepareFinish options3 (resolveOptions dflts userOptions options3) url0 inj.2
    (aliasCallerB userOptions options3) args

/-- The synchronous prefix of `request` (lines 89-144). `new URL` failure and
a non-http(s) protocol both raise the line-95 TypeError; `delete options.url`
runs exactly when the URL constructor succeeded. -/
def prepare (pf : Platform) (dflts : OptRec) (ctx : Ctx) (nonces : NonceCache)
    (options0 : OptRec) (args : CallArgs) : PrepOut :=
  match options0.url.bind pf.parseURL with
  | none =>
    { result := .error .invalidURL, callerOptions := options0,
      mergedAliasesCaller := false, proofCalls := [] }
  | some url0 =>
    let options1 : OptRec := { options0 with url := none }
    if url0.protocol = "http:" ∨ url0.protocol = "https:" then
      prepareChecked dflts ctx nonces url0 options1 args
    else
      { result := .error .invalidURL, callerOptions := options1,
        mergedAliasesCaller := false, proofCalls := [] }

/-- The outgoing message as observed by the receiving end: transport, path,
target, method, final headers, and the body bytes written. -/
structure OutMsg where
  isHttp2 : Bool
  path : String
  href : String
  method : Option String
  headers : HeadersObj
  bodyBytes : Option String
deriving Repr

/-- `Object.assign(base, src)`: assign each of `src`'s entries onto `base`. -/
def hAssignAll (base : HeadersObj) (src : HeadersObj) : HeadersObj :=
  src.foldl (fun acc p => hAssign acc p.1 p.2) base

/-- Lines 148-168: build the underlying request. HTTP/2 synthesizes a header
object with the path and, per body kind, method POST plus content-type and
content-length (byte length of the serialized payload); HTTP/1.1 issues a
request against the resolved URL with the merged options. -/
def buildReq (pf : Platform) (p : Prepared) : OutMsg :=
  if p.http2 then
    let base := hAssignAll [(":path", .s p.url.pathname)] p.headers
    let headers :=
      match p.json with
      | some j =>
        hAssign (hAssign (hAssign base ":method" (.s "POST"))
          "content-type" (.s "application/json"))
          "content-length" (.n (pf.stringify j).utf8ByteSize)
      | none =>
        match p.form with
        | some f =>
          hAssign (hAssign (hAssign base ":method" (.s "POST"))
            "content-type" (.s "application/x-www-form-urlencoded"))
            "content-length" (.n (pf.qsStringify f).utf8ByteSize)
        | none =>
          match p.body with
          | some b =>
            hAssign (hAssign base ":method" (.s "POST"))
              "content-length" (.n b.utf8ByteSize)
          | none => base
    { isHttp2 := true, path := p.url.pathname, href := p.url.href,
      method := none, headers := headers, bodyBytes := none }
  else
    { isHttp2 := false, path := p.url.pathname, href := p.url.href,
      method := p.method, headers := p.headers, bodyBytes := none }

/-- Lines 48-64, `send(req, body, contentType)`: on an HTTP/2 stream with a
body, write the bytes and end; otherwise set content-type (remove-then-set)
when given, and with a body set content-length to its byte length and write
the bytes. -/
def send (req : OutMsg) (body : Option String) (contentType : Option String) : OutMsg :=
  if req.isHttp2 ∧ body.isSome then { req with bodyBytes := body }
  else
    let req1 :=
      match contentType with
      | some ct =>
        { req with headers := hAssign (hRemove req.headers "content-type") "content-type" (.s ct) }
      | none => req
    match body with
    | some b =>
      { req1 with
          headers := hAssign (hRemove req1.headers "content-length")
            "content-length" (.n b.utf8ByteSize)
          bodyBytes := some b }
    | none => req1

/-- Lines 148-179: build the request and send exactly one body kind, with
the json/form/body precedence of the source. -/
def dispatch (pf : Platform) (p : Prepared) : OutMsg :=
  let req := buildReq pf p
  match p.json with
  | some j => send req (some (pf.stringify j)) (some "application/json")
  | none =>
    match p.form with
    | some f => send req (some (pf.qsStringify f)) (some "application/x-www-form-urlencoded")
    | none =>
      match p.body with
      | some b => send req (some b) none
      | none => send req none none

/-- The decoded body value: a raw buffer or a parsed JSON value. -/
inductive BodyVal
  | buf (v : String)
  | jsonv (j : Jsonv)
deriving Repr

/-- The state of the `body` property of a response object: never defined
(empty body), backed by the json or buffer getter of lines 203-217 /
222-229, or memoized as a plain value property. -/
inductive BodySlot
  | absent
  | jsonGetter (parts : List String)
  | bufGetter (parts : List String)
  | memo (v : BodyVal)
deriving Repr

/-- The response object exposed to the caller. -/
structure Response where
  statusCode : Option HVal
  headers : HeadersObj
  bodySlot : BodySlot
deriving Repr

/-- Lines 190-198: for HTTP/2 the response object is rebuilt around the
header map and its status code read from the `:status` entry; for HTTP/1.1
the platform response carries the status code. -/
def mkResponse (isH2 : Bool) (status : Nat) (hdrs : HeadersObj) (slot : BodySlot) : Response :=
  if isH2 then { statusCode := hGet hdrs ":status", headers := hdrs, bodySlot := slot }
  else { statusCode := some (.n status), headers := hdrs, bodySlot := slot }

/-- Result of one access to `response.body`: the value produced (or the
thrown decode error, carrying the response object attached to it), and the
response object's state afterwards. -/
structure AccessOut where
  value : Except Response (Option BodyVal)
  after : Response

/-- One property read of `response.body` (lines 200-235). The json getter
concatenates, parses, attaches the response to a parse error, and in a
`finally` replaces the property by a plain value property holding `value` -
the parsed value on success, the raw concatenated buffer when `JSON.parse`
threw. The buffer getter concatenates and memoizes. A memoized property
returns its value; an undefined property reads as `undefined`. -/
def accessBody (parse : String → Option Jsonv) (r : Response) : AccessOut :=
  match r.bodySlot with
  | .absent => { value := .ok none, after := r }
  | .memo v => { value := .ok (some v), after := r }
  | .bufGetter parts =>
    let v := String.join parts
    { value := .ok (some (.buf v)), after := { r with bodySlot := .memo (.buf v) } }
  | .jsonGetter parts =>
    let raw := String.join parts
    match parse raw with
    | some j => { value := .ok (some (.jsonv j)), after := { r with bodySlot := .memo (.jsonv j) } }
    | none =>
      let after : Response := { r with bodySlot := .memo (.buf raw) }
      { value := .error after, after := after }

/-- What the network does on this attempt: the timeout signal wins the race,
a response arrives and its body drains to `parts`, or a response arrives and
the stream fails while draining. -/
inductive NetOutcome
  | timeout
  | reply (status : Nat) (headers : HeadersObj) (parts : List String)
  | replyBodyError (status : Nat) (headers : HeadersObj)

/-- An error as the caller sees it: the raised error plus the response
reference the catch wrapper of lines 239-242 attached (none when no
response object existed). -/
structure ErrCtx where
  err : ReqError
  response : Option Response
deriving Repr

/-- The observable outcome of one `request` call: the settled promise, the
dispatched message (none when validation failed before any socket), whether
the underlying request was destroyed, the `dpopProof` invocations, the
nonce-cache writes of the finally step (in order), the cache afterwards, and
the final state of the caller's options object. -/
structure ReqResult where
  result : Except ErrCtx Response
  dispatched : Option OutMsg
  destroyed : Bool
  proofCalls : List DpopPayload
  nonceWrites : List (String × String)
  noncesAfter : NonceCache
  callerOptions : OptRec

/-- Lines 243-248, the `finally` step: when a response object exists and its
`dpop-nonce` header is a nonempty string matching `NQCHAR`, update the cache
entry for the origin+path key. -/
def finalizeNonce (key : String) (resp : Option Response) (nonces : NonceCache) :
    NonceCache × List (String × String) :=
  match resp with
  | none => (nonces, [])
  | some r =>
    match hGet r.headers "dpop-nonce" with
    | some (.s v) =>
      if v ≠ "" ∧ nqcharTest v then (cacheSet nonces key v, [(key, v)])
      else (nonces, [])
    | _ => (nonces, [])

/-- Assemble a `ReqResult` for a completed exchange (response object exists):
runs the finally step exactly once. -/
def finishWith (nonces : NonceCache) (pr : PrepOut) (msg : OutMsg) (key : String)
    (res : Except ErrCtx Response) (resp : Option Response) : ReqResult :=
  let fin := finalizeNonce key resp nonces
  { result := res, dispatched := some msg, destroyed := false,
    proofCalls := pr.proofCalls, nonceWrites := fin.2, noncesAfter := fin.1,
    callerOptions := pr.callerOptions }

/-- Lines 146-248 once preparation succeeded: dispatch, race the response
against the timeout, collect the body, install the body property per decode
mode (after receiving the bytes, and only when the body is non-empty), wrap
errors with the in-flight response, and run the finally step. -/
def requestDispatch (pf : Platform) (nonces : NonceCache) (pr : PrepOut) (p : Prepared)
    (net : NetOutcome) : ReqResult :=
  let msg := dispatch pf p
  let key := p.url.origin ++ p.url.pathname
  match net with
  | .timeout =>
    { result := .error { err := .timeoutErr p.timeout, response := none },
      dispatched := some msg, destroyed := true, proofCalls := pr.proofCalls,
      nonceWrites := [], noncesAfter := nonces, callerOptions := pr.callerOptions }
  | .replyBodyError status hdrs =>
    let r := mkResponse p.http2 status hdrs .absent
    finishWith nonces pr msg key (.error { err := .transport, response := some r }) (some r)
  | .reply status hdrs parts =>
    if parts = [] then
      let r := mkResponse p.http2 status hdrs .absent
      finishWith nonces pr msg key (.ok r) (some r)
    else if p.responseType = some "json" then
      let r := mkResponse p.http2 status hdrs (.jsonGetter parts)
      finishWith nonces pr msg key (.ok r) (some r)
    else if p.responseType = none ∨ p.responseType = some "buffer" then
      let r := mkResponse p.http2 status hdrs (.bufGetter parts)
      finishWith nonces pr msg key (.ok r) (some r)
    else
      let r := mkResponse p.http2 status hdrs .absent
      finishWith nonces pr msg key
        (.error { err := .unsupportedResponseType, response := some r }) (some r)

/-- The exported `request` function (lines 88-249). Validation errors are
raised before the async body is entered: no socket is opened, no response is
attached, and the finally step does not run. -/
def request (pf : Platform) (dflts : OptRec) (ctx : Ctx) (nonces : NonceCache)
    (options : OptRec) (args : CallArgs) (net : NetOutcome) : ReqResult :=
  let pr := prepare pf dflts ctx nonces options args
  match pr.result with
  | .error e =>
    { result := .error { err := e, response := none }, dispatched := none,
      destroyed := false, proofCalls := pr.proofCalls, nonceWrites := [],
      noncesAfter := nonces, callerOptions := pr.callerOptions }
  | .ok p => requestDispatch pf nonces pr p net

/-- The value computed by the finally step for a response with the given
headers: the cache update and the list of writes it performs. -/
def nonceUpdate (key : String) (hdrs : HeadersObj) (nonces : NonceCache) :
    NonceCache × List (String × String) :=
  match hGet hdrs "dpop-nonce" with
  | some (.s v) =>
    if v ≠ "" ∧ nqcharTest v then (cacheSet nonces key v, [(key, v)])
    else (nonces, [])
  | _ => (nonces, [])

/-! ## Concrete fixtures used by witnesses and counterexamples -/

/-- A fixed token-endpoint URL. -/
def urlTok : URLRec :=
  { protocol := "https:", origin := "https://op.example", pathname := "/token",
    href := "https://op.example/token", searchParams := [] }

/-- A concrete platform: a parser recognizing the fixture URL, and fixed
serializers. -/
def pfEx : Platform :=
  { parseURL := fun u => if u = "https://op.example/token" then some urlTok else none
    stringify := fun _ => "serialized-json"
    qsStringify := fun _ => "a=b" }

/-- A caller exposing neither the hook nor the proof capability. -/
def ctxNone : Ctx := {}

/-- `request` called without accessToken/mTLS/DPoP. -/
def argsNone : CallArgs := {}

/-- Minimal valid options: just the fixture URL. -/
def optsBase : OptRec := { url := some "https://op.example/token" }

/-- What `prepare` resolves `optsBase` to under the initial defaults. -/
def pBase : Prepared :=
  { url := urlTok, method := none, headers := [("User-Agent", .s "openid-client")],
    timeout := some 3500, http2 := false, json := none, form := none, body := none,
    responseType := none }

/-- Options selecting the unsupported decode mode `"text"`. -/
def optsC1 : OptRec :=
  { url := some "https://op.example/token", responseType := some "text" }

/-- What `prepare` resolves `optsC1` to. -/
def pC1 : Prepared :=
  { url := urlTok, method := none, headers := [("User-Agent", .s "openid-client")],
    timeout := some 3500, http2 := false, json := none, form := none, body := none,
    responseType := some "text" }

/-- A response in json decode mode whose collected bytes are not valid JSON. -/
def rJsonEx : Response :=
  { statusCode := some (.n 200), headers := [("server", .s "op")],
    bodySlot := .jsonGetter ["x"] }

/-- A response in buffer decode mode with two collected chunks. -/
def rBufEx : Response :=
  { statusCode := some (.n 200), headers := [], bodySlot := .bufGetter ["a", "b"] }

/-- A hook that sets only the (allow-listed) timeout. -/
def hookC3 : URLRec → OptRec → OptRec := fun _ _ => { timeout := some 1000 }

/-- A caller exposing `hookC3`. -/
def ctxC3 : Ctx := { httpOptions := some hookC3 }

/-- Call options that also set the timeout. -/
def optsC3 : OptRec := { url := some "https://op.example/token", timeout := some 2000 }

/-- What `prepare` resolves `optsC3` to under `ctxC3`: the hook's timeout. -/
def pC3 : Prepared :=
  { url := urlTok, method := none, headers := [("User-Agent", .s "openid-client")],
    timeout := some 1000, http2 := false, json := none, form := none, body := none,
    responseType := none }

/-- A proof-generation capability that bakes the received nonce into its
output, so the produced header shows which nonce was used. -/
def proofFn : DpopPayload → String → Option String → String :=
  fun payload _ _ => "proof-" ++ payload.nonce.getD "nil"

/-- A caller exposing the proof capability. -/
def ctxC5 : Ctx := { dpopProof := some proofFn }

/-- A call requesting DPoP with some key material. -/
def argsC5 : CallArgs := { DPoP := some "keymaterial" }

/-- A nonce cache holding `abc123` for the fixture origin+path. -/
def noncesC5 : NonceCache := cacheSet [] "https://op.example/token" "abc123"

/-- A prepared request carrying a JSON payload. -/
def pJson : Prepared :=
  { url := urlTok, method := some "POST", headers := [], timeout := some 3500,
    http2 := false, json := some (.obj [("x", .num 1)]), form := none, body := none,
    responseType := none }

/-- Options whose URL does not parse as absolute http(s). -/
def optsFtp : OptRec := { url := some "ftp://op.example" }

/-- A hook that supplies its own headers object. -/
def hookC10 : URLRec → OptRec → OptRec := fun _ _ => { headers := some [("x", .s "1")] }

/-- A caller exposing `hookC10`. -/
def ctxC10 : Ctx := { httpOptions := some hookC10 }

/-- Caller options whose headers object holds an undefined-valued entry. -/
def optsC10 : OptRec :=
  { url := some "https://op.example/token", headers := some [("a", .undef)] }

/-- Caller options with an undefined-valued header entry and no hook in play. -/
def optsC10b : OptRec :=
  { url := some "https://op.example/token", headers := some [("b", .undef)] }

/-! ## Helper lemmas about the header-object operations -/

theorem hGet_hReplace_self (t : HeadersObj) (k : String) (v : HVal) :
    hGet (hReplace t k v) k = if (hGet t k).isSome then some v else none := by
  induction t with
  | nil => simp [hReplace, hGet]
  | cons p t ih =>
    obtain ⟨k0, v0⟩ := p
    by_cases hk : k0 = k
    · subst hk
      simp only [hReplace, if_pos rfl, hGet, Option.isSome_some, if_true]
    · simp only [hReplace, if_neg hk, hGet, if_neg hk]
      exact ih

theorem hGet_hReplace_other (t : HeadersObj) (k k' : String) (v : HVal) (hne : k' ≠ k) :
    hGet (hReplace t k' v) k = hGet t k := by
  induction t with
  | nil => simp [hReplace, hGet]
  | cons p t ih =>
    obtain ⟨k0, v0⟩ := p
    by_cases hk : k0 = k'
    · subst hk
      simp only [hReplace, if_pos rfl, hGet, if_neg hne]
      exact ih
    · by_cases hk2 : k0 = k
      · subst hk2
        simp [hReplace, if_neg hk, hGet]
      · simp only [hReplace, if_neg hk, hGet, if_neg hk2]
        exact ih

theorem hGet_append_single (t : HeadersObj) (k : String) (v : HVal) (h : hGet t k = none) :
    hGet (t ++ [(k, v)]) k = some v := by
  induction t with
  | nil => simp [hGet]
  | cons p t ih =>
    obtain ⟨k0, v0⟩ := p
    by_cases hk : k0 = k
    · subst hk
      simp [hGet] at h
    · simp only [hGet, if_neg hk] at h
      simpa [hGet, hk] using ih h

theorem hGet_append_single_other (t : HeadersObj) (k k' : String) (v : HVal) (hne : k' ≠ k) :
    hGet (t ++ [(k', v)]) k = hGet t k := by
  induction t with
  | nil => simp [hGet, hne]
  | cons p t ih =>
    obtain ⟨k0, v0⟩ := p
    by_cases hk : k0 = k
    · subst hk
      simp [hGet]
    · simp [hGet, hk, ih]

theorem hGet_assign_self (h : HeadersObj) (k : String) (v : HVal) :
    hGet (hAssign h k v) k = some v := by
  unfold hAssign
  by_cases hs : (hGet h k).isSome
  · rw [if_pos hs, hGet_hReplace_self]
    simp [hs]
  · rw [if_neg hs]
    exact hGet_append_single _ _ _ (Option.not_isSome_iff_eq_none.mp hs)

theorem hGet_assign_other (h : HeadersObj) (k k' : String) (v : HVal) (hne : k' ≠ k) :
    hGet (hAssign h k' v) k = hGet h k := by
  unfold hAssign
  by_cases hs : (hGet h k').isSome
  · rw [if_pos hs]
    exact hGet_hReplace_other _ _ _ _ hne
  · rw [if_neg hs]
    exact hGet_append_single_other _ _ _ _ hne

theorem hGet_defaultsHeaders_defined (s : HeadersObj) (t : HeadersObj) (k : String) (v : HVal)
    (hv : v ≠ .undef) (hg : hGet t k = some v) :
    hGet (defaultsHeaders t s) k = some v := by
  induction s generalizing t with
  | nil => simpa [defaultsHeaders] using hg
  | cons p rest ih =>
    obtain ⟨k0, v0⟩ := p
    by_cases h0 : v0 = .undef
    · simp only [defaultsHeaders, if_pos h0]
      exact ih t hg
    · simp only [defaultsHeaders, if_neg h0]
      by_cases hu : undefAt (hGet t k0) = true
      · rw [if_pos hu]
        by_cases hk : k0 = k
        · subst hk
          rw [hg] at hu
          cases v with
          | undef => exact absurd rfl hv
          | s w => simp [undefAt] at hu
          | n w => simp [undefAt] at hu
        · exact ih _ (by rw [hGet_assign_other _ _ _ _ hk, hg])
      · rw [if_neg hu]
        exact ih t hg

theorem hGet_clean_defined (h : HeadersObj) (k : String) (v : HVal)
    (hv : v ≠ .undef) (hg : hGet h k = some v) :
    hGet (cleanHeaders h) k = some v := by
  induction h with
  | nil => simp [hGet] at hg
  | cons p t ih =>
    obtain ⟨k0, v0⟩ := p
    by_cases hk : k0 = k
    · subst hk
      simp only [hGet, if_pos rfl] at hg
      obtain rfl : v0 = v := by injection hg
      simp only [cleanHeaders, if_neg hv]
      simp [hGet]
    · simp only [hGet, if_neg hk] at hg
      by_cases h0 : v0 = .undef
      · simp only [cleanHeaders, if_pos h0]
        exact ih hg
      · simp only [cleanHeaders, if_neg h0, hGet, if_neg hk]
        exact ih hg

theorem hGet_clean_ne_undef (h : HeadersObj) (k : String) :
    hGet (cleanHeaders h) k ≠ some HVal.undef := by
  induction h with
  | nil => simp [cleanHeaders, hGet]
  | cons p t ih =>
    obtain ⟨k0, v0⟩ := p
    by_cases h0 : v0 = .undef
    · simp only [cleanHeaders, if_pos h0]
      exact ih
    · by_cases hk : k0 = k
      · subst hk
        simp only [cleanHeaders, if_neg h0, hGet, if_pos rfl]
        intro hcontra
        exact h0 (by injection hcontra)
      · simp only [cleanHeaders, if_neg h0, hGet, if_neg hk]
        exact ih

theorem hGet_hRemove_other (h : HeadersObj) (k k' : String) (hne : k' ≠ k) :
    hGet (hRemove h k') k = hGet h k := by
  induction h with
  | nil => rfl
  | cons p t ih =>
    obtain ⟨k0, v0⟩ := p
    by_cases hk : k0 = k'
    · subst hk
      simp only [hRemove, if_pos rfl, hGet, if_neg hne]
      exact ih
    · by_cases hk2 : k0 = k
      · subst hk2
        simp [hRemove, if_neg hk, hGet]
      · simp only [hRemove, if_neg hk, hGet, if_neg hk2]
        exact ih

theorem firstDefined_assoc (a b c : Option α) :
    firstDefined (firstDefined a b) c = firstDefined a (firstDefined b c) := by
  cases a <;> rfl

/-! ## Plumbing lemmas about the request pipeline -/

theorem request_ok (pf : Platform) (dflts : OptRec) (ctx : Ctx) (nonces : NonceCache)
    (options : OptRec) (args : CallArgs) (net : NetOutcome) (p : Prepared)
    (hp : (prepare pf dflts ctx nonces options args).result = .ok p) :
    request pf dflts ctx nonces options args net
      = requestDispatch pf nonces (prepare pf dflts ctx nonces options args) p net := by
  simp only [request]
  rw [hp]

theorem request_err (pf : Platform) (dflts : OptRec) (ctx : Ctx) (nonces : NonceCache)
    (options : OptRec) (args : CallArgs) (net : NetOutcome) (e : ReqError)
    (hp : (prepare pf dflts ctx nonces options args).result = .error e) :
    request pf dflts ctx nonces options args net
      = { result := .error { err := e, response := none }, dispatched := none,
          destroyed := false,
          proofCalls := (prepare pf dflts ctx nonces options args).proofCalls,
          nonceWrites := [], noncesAfter := nonces,
          callerOptions := (prepare pf dflts ctx nonces options args).callerOptions } := by
  simp only [request]
  rw [hp]

theorem mkResponse_headers (b : Bool) (status : Nat) (hdrs : HeadersObj) (slot : BodySlot) :
    (mkResponse b status hdrs slot).headers = hdrs := by
  unfold mkResponse
  split <;> rfl

theorem finalizeNonce_some (key : String) (r : Response) (nonces : NonceCache) :
    finalizeNonce key (some r) nonces = nonceUpdate key r.headers nonces := rfl

theorem prepare_eq_checked (pf : Platform) (dflts : OptRec) (ctx : Ctx) (nonces : NonceCache)
    (options : OptRec) (args : CallArgs) (url0 : URLRec)
    (hurl : options.url.bind pf.parseURL = some url0)
    (hproto : url0.protocol = "http:" ∨ url0.protocol = "https:") :
    prepare pf dflts ctx nonces options args
      = prepareChecked dflts ctx nonces url0 { options with url := none } args := by
  unfold prepare
  simp only [hurl]
  rw [if_pos hproto]

theorem injectDPoP_url (ctx : Ctx) (args : CallArgs) (nonces : NonceCache) (url0 : URLRec)
    (o : OptRec) : (injectDPoP ctx args nonces url0 o).1.url = o.url := by
  unfold injectDPoP
  split <;> rfl

theorem hookMutateCaller_url (dflts : OptRec) (o : OptRec) :
    (hookMutateCaller dflts o).url = o.url := by
  unfold hookMutateCaller
  split <;> rfl

/-! ## C2 -/

/-- C2 counterexample: in json mode with invalid bytes `"x"`, the first body
access does raise a decode error carrying the response (original status code
and headers), but the body property does not remain backed by the getter:
the finally step replaces it by a memoized plain value holding the raw
concatenated buffer. -/
theorem c2_counterexample :
    (accessBody (fun _ => none) rJsonEx).value
        = .error { statusCode := some (.n 200), headers := [("server", .s "op")],
                   bodySlot := .memo (.buf "x") } ∧
    (accessBody (fun _ => none) rJsonEx).after.bodySlot = .memo (.buf "x") ∧
    (accessBody (fun _ => none) rJsonEx).after.bodySlot ≠ .jsonGetter ["x"] := by
  refine ⟨rfl, rfl, ?_⟩
  intro h
  exact BodySlot.noConfusion h

/-- C2 (amended): in json decode mode, when the concatenated bytes do not
parse, the first body access raises a decode error whose attached response
keeps the original status code and headers; but the finally step memoizes
the raw concatenated buffer as the body value, so the property is no longer
backed by the getter and every later access returns the raw buffer without
raising and without invoking the parser. -/
theorem c2_amended (parse : String → Option Jsonv) (r : Response) (parts : List String)
    (hslot : r.bodySlot = .jsonGetter parts)
    (hfail : parse (String.join parts) = none) :
    (accessBody parse r).value
        = .error { r with bodySlot := .memo (.buf (String.join parts)) } ∧
    (accessBody parse r).after = { r with bodySlot := .memo (.buf (String.join parts)) } ∧
    ({ r with bodySlot := .memo (.buf (String.join parts)) } : Response).statusCode
        = r.statusCode ∧
    ({ r with bodySlot := .memo (.buf (String.join parts)) } : Response).headers
        = r.headers ∧
    ∀ parse2 : String → Option Jsonv,
      accessBody parse2 { r with bodySlot := .memo (.buf (String.join parts)) }
        = { value := .ok (some (.buf (String.join parts)))
            after := { r with bodySlot := .memo (.buf (String.join parts)) } } := by
  refine ⟨?_, ?_, rfl, rfl, ?_⟩
  · simp [accessBody, hslot, hfail]
  · simp [accessBody, hslot, hfail]
  · intro parse2
    simp [accessBody]

/-- C2 witness: the amended statement evaluated at the fixture response with
an always-failing parser. -/
theorem c2_amended_witness :
    (accessBody (fun _ => none) rJsonEx).value
      = .error { rJsonEx with bodySlot := .memo (.buf (String.join ["x"])) } :=
  (c2_amended (fun _ => none) rJsonEx ["x"] rfl rfl).1

/-! ## C9 -/

/-- C9: the body value is computed at most once. After a first successful
access, the property is memoized: a second access (with any parser, so no
re-parsing can occur) returns the identical value and leaves the response
unchanged. -/
theorem c9_body_memoized (parse parse2 : String → Option Jsonv) (r : Response)
    (v : Option BodyVal) (h : (accessBody parse r).value = .ok v) :
    (accessBody parse2 (accessBody parse r).after).value = .ok v ∧
    (accessBody parse2 (accessBody parse r).after).after = (accessBody parse r).after := by
  cases hs : r.bodySlot with
  | absent =>
    simp only [accessBody, hs] at h ⊢
    exact ⟨h, trivial⟩
  | memo w =>
    simp only [accessBody, hs] at h ⊢
    exact ⟨h, trivial⟩
  | bufGetter parts =>
    simp only [accessBody, hs] at h ⊢
    exact ⟨h, trivial⟩
  | jsonGetter parts =>
    cases hp : parse (String.join parts) with
    | some j =>
      simp only [accessBody, hs, hp] at h ⊢
      exact ⟨h, trivial⟩
    | none =>
      simp only [accessBody, hs, hp] at h
      exact absurd h (by simp)

/-- C9 witness: two reads of the buffer-mode fixture, the second under a
different parser, agree on the value `"ab"`. -/
theorem c9_witness :
    (accessBody (fun _ => some .null) (accessBody (fun _ => none) rBufEx).after).value
        = .ok (some (.buf "ab")) ∧
    (accessBody (fun _ => some .null) (accessBody (fun _ => none) rBufEx).after).after
        = (accessBody (fun _ => none) rBufEx).after :=
  c9_body_memoized (fun _ => none) (fun _ => some .null) rBufEx (some (.buf "ab")) rfl

/-! ## C4 -/

/-- C4: for every completed exchange with a response object (success, an
unsupported-decode failure, or a body-drain failure alike), the finally step
updates the nonce cache for the origin+path key exactly when the `dpop-nonce`
header is a nonempty string over the `NQCHAR` charset, performing at most one
write per attempt; and no string containing a space ever passes the charset
test, so such a value is never cached. -/
theorem c4_nonce_update (pf : Platform) (dflts : OptRec) (ctx : Ctx) (nonces : NonceCache)
    (options : OptRec) (args : CallArgs) (p : Prepared) (status : Nat)
    (hdrs : HeadersObj) (parts : List String)
    (hp : (prepare pf dflts ctx nonces options args).result = .ok p) :
    ((request pf dflts ctx nonces options args (.reply status hdrs parts)).nonceWrites
        = (nonceUpdate (p.url.origin ++ p.url.pathname) hdrs nonces).2) ∧
    ((request pf dflts ctx nonces options args (.reply status hdrs parts)).noncesAfter
        = (nonceUpdate (p.url.origin ++ p.url.pathname) hdrs nonces).1) ∧
    ((request pf dflts ctx nonces options args (.replyBodyError status hdrs)).nonceWrites
        = (nonceUpdate (p.url.origin ++ p.url.pathname) hdrs nonces).2) ∧
    (∀ (k' : String) (h' : HeadersObj) (n' : NonceCache),
        ((nonceUpdate k' h' n').2).length ≤ 1) ∧
    (∀ v : String, ' ' ∈ v.toList → nqcharTest v = false) := by
  refine ⟨?_, ?_, ?_, ?_, ?_⟩
  · rw [request_ok pf dflts ctx nonces options args _ p hp]
    simp only [requestDispatch]
    split_ifs <;>
      simp only [finishWith, finalizeNonce_some, mkResponse_headers]
  · rw [request_ok pf dflts ctx nonces options args _ p hp]
    simp only [requestDispatch]
    split_ifs <;>
      simp only [finishWith, finalizeNonce_some, mkResponse_headers]
  · rw [request_ok pf dflts ctx nonces options args _ p hp]
    simp only [requestDispatch, finishWith, finalizeNonce_some, mkResponse_headers]
  · intro k' h' n'
    unfold nonceUpdate
    cases hGet h' "dpop-nonce" with
    | none => simp
    | some v =>
      cases v with
      | undef => simp
      | s w =>
        by_cases hc : w ≠ "" ∧ nqcharTest w = true
        · simp [hc]
        · simp [hc]
      | n m => simp
  · intro v hv
    unfold nqcharTest
    have hall : v.toList.all isNQChar = false := by
      rw [List.all_eq_false]
      exact ⟨' ', hv, by decide⟩
    rw [hall]
    simp

/-- C4 witness: a valid nonce `abc123` is written exactly once for the
fixture key, and `bad nonce` (contains a space) fails the charset test. -/
theorem c4_witness :
    (request pfEx initialDefaults ctxNone [] optsBase argsNone
        (.reply 200 [("dpop-nonce", .s "abc123")] ["z"])).nonceWrites
      = [("https://op.example/token", "abc123")] ∧
    nqcharTest "bad nonce" = false := by
  obtain ⟨h1, h2, h3, h4, h5⟩ := c4_nonce_update pfEx initialDefaults ctxNone [] optsBase
      argsNone pBase 200 [("dpop-nonce", .s "abc123")] ["z"] rfl
  refine ⟨?_, h5 "bad nonce" (by decide)⟩
  rw [h1]
  rfl

/-! ## C6 -/

/-- C6: when the timeout signal wins the race, the underlying request is
destroyed and the raised error carries the configured timeout duration with
no response object attached; the finally step writes nothing. -/
theorem c6_timeout (pf : Platform) (dflts : OptRec) (ctx : Ctx) (nonces : NonceCache)
    (options : OptRec) (args : CallArgs) (p : Prepared)
    (hp : (prepare pf dflts ctx nonces options args).result = .ok p) :
    (request pf dflts ctx nonces options args .timeout).result
        = .error { err := .timeoutErr p.timeout, response := none } ∧
    (request pf dflts ctx nonces options args .timeout).destroyed = true ∧
    (request pf dflts ctx nonces options args .timeout).dispatched = some (dispatch pf p) ∧
    (request pf dflts ctx nonces options args .timeout).nonceWrites = [] := by
  rw [request_ok pf dflts ctx nonces options args .timeout p hp]
  exact ⟨rfl, rfl, rfl, rfl⟩

/-- C6 witness: the fixture request timing out raises the error carrying the
resolved 3500ms timeout, with no response, and destroys the request. -/
theorem c6_witness :
    (request pfEx initialDefaults ctxNone [] optsBase argsNone .timeout).result
        = .error { err := .timeoutErr (some 3500), response := none } ∧
    (request pfEx initialDefaults ctxNone [] optsBase argsNone .timeout).destroyed = true :=
  ⟨(c6_timeout pfEx initialDefaults ctxNone [] optsBase argsNone pBase rfl).1,
   (c6_timeout pfEx initialDefaults ctxNone [] optsBase argsNone pBase rfl).2.1⟩

/-! ## C1 -/

/-- C1 counterexample: with decode mode `"text"` the call does not fail
before dispatch: the request is dispatched, and the unsupported-mode error is
raised only after the response arrived (it carries the response object), and
only because the body was non-empty - with an empty body the same request
succeeds with no error at all. -/
theorem c1_counterexample :
    ((request pfEx initialDefaults ctxNone [] optsC1 argsNone
        (.reply 200 [] ["x"])).dispatched.isSome = true) ∧
    ((request pfEx initialDefaults ctxNone [] optsC1 argsNone
        (.reply 200 [] ["x"])).result
      = .error { err := .unsupportedResponseType,
                 response := some { statusCode := some (.n 200), headers := [],
                                    bodySlot := .absent } }) ∧
    ((request pfEx initialDefaults ctxNone [] optsC1 argsNone
        (.reply 200 [] [])).result
      = .ok { statusCode := some (.n 200), headers := [], bodySlot := .absent }) :=
  ⟨rfl, rfl, rfl⟩

/-- C1 (amended): for a resolved decode mode that is neither `"buffer"`,
`"json"` nor absent, the request is dispatched normally; the
unsupported-mode TypeError is raised only after the response is received and
only when the accumulated body is non-empty (with the response attached);
with an empty body the response is returned without error. -/
theorem c1_amended (pf : Platform) (dflts : OptRec) (ctx : Ctx) (nonces : NonceCache)
    (options : OptRec) (args : CallArgs) (p : Prepared) (status : Nat)
    (hdrs : HeadersObj) (parts : List String) (rt : String)
    (hp : (prepare pf dflts ctx nonces options args).result = .ok p)
    (hrt : p.responseType = some rt) (h1 : rt ≠ "json") (h2 : rt ≠ "buffer") :
    ((request pf dflts ctx nonces options args (.reply status hdrs parts)).dispatched
        = some (dispatch pf p)) ∧
    (parts ≠ [] →
      (request pf dflts ctx nonces options args (.reply status hdrs parts)).result
        = .error { err := .unsupportedResponseType,
                   response := some (mkResponse p.http2 status hdrs .absent) }) ∧
    (parts = [] →
      (request pf dflts ctx nonces options args (.reply status hdrs parts)).result
        = .ok (mkResponse p.http2 status hdrs .absent)) := by
  rw [request_ok pf dflts ctx nonces options args _ p hp]
  have hj : ¬ (p.responseType = some "json") := by
    rw [hrt]
    intro hcontra
    exact h1 (by injection hcontra)
  have hb : ¬ (p.responseType = none ∨ p.responseType = some "buffer") := by
    rw [hrt]
    rintro (hcontra | hcontra)
    · exact Option.noConfusion hcontra
    · exact h2 (by injection hcontra)
  refine ⟨?_, ?_, ?_⟩
  · simp only [requestDispatch]
    split_ifs <;> rfl
  · intro hne
    simp only [requestDispatch, if_neg hne, if_neg hj, if_neg hb]
    rfl
  · intro heq
    simp only [requestDispatch, if_pos heq]
    rfl

/-- C1 witness: the amended statement evaluated at the `"text"` fixture with
a one-chunk body. -/
theorem c1_amended_witness :
    (request pfEx initialDefaults ctxNone [] optsC1 argsNone (.reply 200 [] ["x"])).result
      = .error { err := .unsupportedResponseType,
                 response := some (mkResponse false 200 [] .absent) } :=
  (c1_amended pfEx initialDefaults ctxNone [] optsC1 argsNone pC1 200 [] ["x"] "text"
      rfl rfl (by decide) (by decide)).2.1 (by decide)

/-! ## C3 -/

/-- C3 counterexample: the hook sets `timeout: 1000`, the call-supplied
options set `timeout: 2000`; the resolved options carry the hook's value,
so the call-supplied value does not win. -/
theorem c3_counterexample :
    (prepare pfEx initialDefaults ctxC3 [] optsC3 argsNone).result = .ok pC3 ∧
    pC3.timeout = some 1000 ∧
    optsC3.timeout = some 2000 ∧
    pC3.timeout ≠ optsC3.timeout :=
  ⟨rfl, rfl, rfl, by decide⟩

/-- C3 (amended): the final option set merges, in increasing precedence, the
process-wide defaults, then the call-supplied options, then the hook result
restricted to the allow-list: when the hook and the call both set an
allow-listed field the hook's value wins, the call-supplied value beats only
the defaults, and a non-allow-listed field of the hook result (such as
responseType) is discarded. -/
theorem c3_amended (dflts hookResult call : OptRec) :
    ((resolveOptions dflts (some (pickAllowed hookResult)) call).timeout
        = firstDefined hookResult.timeout (firstDefined call.timeout dflts.timeout)) ∧
    ((resolveOptions dflts (some (pickAllowed hookResult)) call).agent
        = firstDefined hookResult.agent (firstDefined call.agent dflts.agent)) ∧
    ((resolveOptions dflts (some (pickAllowed hookResult)) call).pfx
        = firstDefined hookResult.pfx (firstDefined call.pfx dflts.pfx)) ∧
    ((resolveOptions dflts (some (pickAllowed hookResult)) call).responseType
        = firstDefined call.responseType dflts.responseType) ∧
    ((resolveOptions dflts none call).timeout
        = firstDefined call.timeout dflts.timeout) := by
  refine ⟨?_, ?_, ?_, rfl, rfl⟩
  · exact firstDefined_assoc _ _ _
  · exact firstDefined_assoc _ _ _
  · exact firstDefined_assoc _ _ _

/-! ## C8 -/

theorem prepare_invalid (pf : Platform) (dflts : OptRec) (ctx : Ctx) (nonces : NonceCache)
    (options : OptRec) (args : CallArgs)
    (hbad : ∀ u, options.url.bind pf.parseURL = some u →
        u.protocol ≠ "http:" ∧ u.protocol ≠ "https:") :
    (prepare pf dflts ctx nonces options args).result = .error .invalidURL := by
  unfold prepare
  cases hb : options.url.bind pf.parseURL with
  | none => rfl
  | some u =>
    obtain ⟨h1, h2⟩ := hbad u hb
    have hcond : ¬ (u.protocol = "http:" ∨ u.protocol = "https:") := by
      rintro (h | h)
      · exact h1 h
      · exact h2 h
    simp [hcond]

/-- C8: an input whose URL does not parse as an absolute URL, or parses with
a protocol other than http/https, fails synchronously with the validation
error, no response attached and nothing dispatched, whatever the network
would have done; an absolute http/https input whose exchange succeeds (decode
mode supported, or empty body) yields an ok response whose status code is
populated: the platform's code for HTTP/1.1, the `:status` header entry for
HTTP/2. -/
theorem c8_url_validation (pf : Platform) (dflts : OptRec) (ctx : Ctx) (nonces : NonceCache)
    (options : OptRec) (args : CallArgs) :
    ((∀ u, options.url.bind pf.parseURL = some u →
        u.protocol ≠ "http:" ∧ u.protocol ≠ "https:") →
      ∀ net, (request pf dflts ctx nonces options args net).result
            = .error { err := .invalidURL, response := none } ∧
        (request pf dflts ctx nonces options args net).dispatched = none) ∧
    (∀ (p : Prepared) (status : Nat) (hdrs : HeadersObj) (parts : List String),
      (prepare pf dflts ctx nonces options args).result = .ok p →
      (p.responseType = none ∨ p.responseType = some "buffer" ∨
        p.responseType = some "json" ∨ parts = []) →
      ((request pf dflts ctx nonces options args (.reply status hdrs parts)).result.isOk
          = true) ∧
      (p.http2 = false →
        ((request pf dflts ctx nonces options args
            (.reply status hdrs parts)).result.toOption.map Response.statusCode
          = some (some (.n status)))) ∧
      (p.http2 = true →
        ((request pf dflts ctx nonces options args
            (.reply status hdrs parts)).result.toOption.map Response.statusCode
          = some (hGet hdrs ":status")))) := by
  constructor
  · intro hbad net
    rw [request_err pf dflts ctx nonces options args net .invalidURL
      (prepare_invalid pf dflts ctx nonces options args hbad)]
    exact ⟨rfl, rfl⟩
  · intro p status hdrs parts hp hgood
    rw [request_ok pf dflts ctx nonces options args _ p hp]
    by_cases hparts : parts = []
    · simp only [requestDispatch, if_pos hparts, finishWith]
      refine ⟨rfl, ?_, ?_⟩ <;> intro hb <;> rw [hb] <;> rfl
    · rcases hgood with hrt | hrt | hrt | hrt
      · have hj : ¬ (p.responseType = some "json") := by
          rw [hrt]
          exact fun hcontra => Option.noConfusion hcontra
        have hbuf : p.responseType = none ∨ p.responseType = some "buffer" := .inl hrt
        simp only [requestDispatch, if_neg hparts, if_neg hj, if_pos hbuf, finishWith]
        refine ⟨rfl, ?_, ?_⟩ <;> intro hb <;> rw [hb] <;> rfl
      · have hj : ¬ (p.responseType = some "json") := by
          rw [hrt]
          intro hcontra
          have : ("buffer" : String) = "json" := by injection hcontra
          exact absurd this (by decide)
        have hbuf : p.responseType = none ∨ p.responseType = some "buffer" := .inr hrt
        simp only [requestDispatch, if_neg hparts, if_neg hj, if_pos hbuf, finishWith]
        refine ⟨rfl, ?_, ?_⟩ <;> intro hb <;> rw [hb] <;> rfl
      · simp only [requestDispatch, if_neg hparts, if_pos hrt, finishWith]
        refine ⟨rfl, ?_, ?_⟩ <;> intro hb <;> rw [hb] <;> rfl
      · exact absurd hrt hparts

/-- C8 witness: a non-parsing URL fails with the validation error and no
dispatch, while the fixture URL with a one-chunk body yields an ok response
with status code 200. -/
theorem c8_witness :
    ((request pfEx initialDefaults ctxNone [] optsFtp argsNone .timeout).result
        = .error { err := .invalidURL, response := none }) ∧
    ((request pfEx initialDefaults ctxNone [] optsFtp argsNone .timeout).dispatched = none) ∧
    ((request pfEx initialDefaults ctxNone [] optsBase argsNone
        (.reply 200 [] ["b"])).result.isOk = true) ∧
    ((request pfEx initialDefaults ctxNone [] optsBase argsNone
        (.reply 200 [] ["b"])).result.toOption.map Response.statusCode
      = some (some (.n 200))) := by
  have hbad : ∀ u, optsFtp.url.bind pfEx.parseURL = some u →
      u.protocol ≠ "http:" ∧ u.protocol ≠ "https:" := by
    intro u hu
    exact Option.noConfusion (show (none : Option URLRec) = some u from hu)
  obtain ⟨ha, hb⟩ := (c8_url_validation pfEx initialDefaults ctxNone [] optsFtp argsNone).1
    hbad .timeout
  obtain ⟨hc, hd, _⟩ := (c8_url_validation pfEx initialDefaults ctxNone [] optsBase argsNone).2
    pBase 200 [] ["b"] rfl (.inl rfl)
  exact ⟨ha, hb, hc, hd rfl⟩

/-! ## C7 -/

/-- C7: a request carrying a JSON payload goes out with content-type
`application/json` and content-length equal to the byte length of the
serialized payload, on both transports, and the body bytes written are the
identical serialized string on HTTP/1.1 and HTTP/2. -/
theorem c7_json_body (pf : Platform) (p : Prepared) (j : Jsonv) (hj : p.json = some j) :
    ((dispatch pf { p with http2 := false }).bodyBytes = some (pf.stringify j)) ∧
    ((dispatch pf { p with http2 := true }).bodyBytes = some (pf.stringify j)) ∧
    (hGet (dispatch pf { p with http2 := false }).headers "content-type"
        = some (.s "application/json")) ∧
    (hGet (dispatch pf { p with http2 := true }).headers "content-type"
        = some (.s "application/json")) ∧
    (hGet (dispatch pf { p with http2 := false }).headers "content-length"
        = some (.n (pf.stringify j).utf8ByteSize)) ∧
    (hGet (dispatch pf { p with http2 := true }).headers "content-length"
        = some (.n (pf.stringify j).utf8ByteSize)) ∧
    ((dispatch pf { p with http2 := false }).bodyBytes
        = (dispatch pf { p with http2 := true }).bodyBytes) := by
  have hne1 : ("content-length" : String) ≠ "content-type" := by decide
  have e1 : dispatch pf { p with http2 := false }
      = send { isHttp2 := false, path := p.url.pathname, href := p.url.href,
               method := p.method, headers := p.headers, bodyBytes := none }
          (some (pf.stringify j)) (some "application/json") := by
    simp [dispatch, buildReq, hj]
  have e2 : dispatch pf { p with http2 := true }
      = send { isHttp2 := true, path := p.url.pathname, href := p.url.href,
               method := none,
               headers := hAssign (hAssign (hAssign
                   (hAssignAll [(":path", .s p.url.pathname)] p.headers)
                   ":method" (.s "POST")) "content-type" (.s "application/json"))
                 "content-length" (.n (pf.stringify j).utf8ByteSize),
               bodyBytes := none }
          (some (pf.stringify j)) (some "application/json") := by
    simp [dispatch, buildReq, hj]
  have s1 : dispatch pf { p with http2 := false }
      = { isHttp2 := false, path := p.url.pathname, href := p.url.href,
          method := p.method,
          headers := hAssign (hRemove (hAssign (hRemove p.headers "content-type")
              "content-type" (.s "application/json")) "content-length")
            "content-length" (.n (pf.stringify j).utf8ByteSize),
          bodyBytes := some (pf.stringify j) } := by
    rw [e1]
    simp [send]
  have s2 : dispatch pf { p with http2 := true }
      = { isHttp2 := true, path := p.url.pathname, href := p.url.href,
          method := none,
          headers := hAssign (hAssign (hAssign
              (hAssignAll [(":path", .s p.url.pathname)] p.headers)
              ":method" (.s "POST")) "content-type" (.s "application/json"))
            "content-length" (.n (pf.stringify j).utf8ByteSize),
          bodyBytes := some (pf.stringify j) } := by
    rw [e2]
    simp [send]
  refine ⟨?_, ?_, ?_, ?_, ?_, ?_, ?_⟩
  · rw [s1]
  · rw [s2]
  · rw [s1]
    show hGet _ "content-type" = _
    rw [hGet_assign_other _ _ _ _ hne1, hGet_hRemove_other _ _ _ hne1, hGet_assign_self]
  · rw [s2]
    show hGet _ "content-type" = _
    rw [hGet_assign_other _ _ _ _ hne1, hGet_assign_self]
  · rw [s1]
    show hGet _ "content-length" = _
    rw [hGet_assign_self]
  · rw [s2]
    show hGet _ "content-length" = _
    rw [hGet_assign_self]
  · rw [s1, s2]

/-- C7 witness: the fixture JSON payload `(obj x:1)` produces the serialized
body on both transports. -/
theorem c7_witness :
    ((dispatch pfEx { pJson with http2 := false }).bodyBytes
        = some (pfEx.stringify (.obj [("x", .num 1)]))) ∧
    ((dispatch pfEx { pJson with http2 := true }).bodyBytes
        = some (pfEx.stringify (.obj [("x", .num 1)]))) ∧
    ((dispatch pfEx { pJson with http2 := false }).bodyBytes
        = (dispatch pfEx { pJson with http2 := true }).bodyBytes) :=
  ⟨(c7_json_body pfEx pJson _ rfl).1, (c7_json_body pfEx pJson _ rfl).2.1,
   (c7_json_body pfEx pJson _ rfl).2.2.2.2.2.2⟩

theorem prepareFinish_proofCalls (options3 merged : OptRec) (url0 : URLRec)
    (proofCalls : List DpopPayload) (aliased : Bool) (args : CallArgs) :
    (prepareFinish options3 merged url0 proofCalls aliased args).proofCalls = proofCalls := by
  unfold prepareFinish
  split_ifs <;> rfl

theorem prepare_proofCalls (pf : Platform) (dflts : OptRec) (ctx : Ctx) (nonces : NonceCache)
    (options : OptRec) (args : CallArgs) (url0 : URLRec)
    (hurl : options.url.bind pf.parseURL = some url0)
    (hproto : url0.protocol = "http:" ∨ url0.protocol = "https:") :
    (prepare pf dflts ctx nonces options args).proofCalls
      = (injectDPoP ctx args nonces url0 { options with url := none }).2 := by
  rw [prepare_eq_checked pf dflts ctx nonces options args url0 hurl hproto]
  simp only [prepareChecked]
  exact prepareFinish_proofCalls _ _ _ _ _ _

/-! ## C5 -/

/-- C5: when DPoP is requested and the proof capability is present, the
engine invokes the capability exactly once, before dispatch, with the target
URI (origin+path), the caller's HTTP method, and the nonce currently cached
under the origin+path key; the produced value is written under the `DPoP`
key of the request headers; and whenever the cache holds a nonce for that
key (for example `abc123` cached by a previous exchange) the payload carries
exactly that nonce. -/
theorem c5_dpop_proof (pf : Platform) (dflts : OptRec) (ctx : Ctx) (nonces : NonceCache)
    (options : OptRec) (args : CallArgs) (url0 : URLRec)
    (f : DpopPayload → String → Option String → String) (keyMat : String)
    (hurl : options.url.bind pf.parseURL = some url0)
    (hproto : url0.protocol = "http:" ∨ url0.protocol = "https:")
    (hf : ctx.dpopProof = some f) (hk : args.DPoP = some keyMat) :
    ((prepare pf dflts ctx nonces options args).proofCalls
        = [{ htu := url0.origin ++ url0.pathname, htm := options.method,
             nonce := cacheGet nonces (url0.origin ++ url0.pathname) }]) ∧
    (hGet ((injectDPoP ctx args nonces url0 { options with url := none }).1.headers.getD [])
        "DPoP"
      = some (.s (f { htu := url0.origin ++ url0.pathname, htm := options.method,
                      nonce := cacheGet nonces (url0.origin ++ url0.pathname) }
                    keyMat args.accessToken))) ∧
    (∀ n, cacheGet nonces (url0.origin ++ url0.pathname) = some n →
      ({ htu := url0.origin ++ url0.pathname, htm := options.method,
         nonce := cacheGet nonces (url0.origin ++ url0.pathname) } : DpopPayload).nonce
        = some n) := by
  refine ⟨?_, ?_, ?_⟩
  · rw [prepare_proofCalls pf dflts ctx nonces options args url0 hurl hproto]
    simp [injectDPoP, hf, hk]
  · simp only [injectDPoP, hf, hk]
    simp only [Option.getD_some]
    exact hGet_assign_self _ _ _
  · intro n hn
    exact hn

/-- C5 witness: with `abc123` cached for the fixture key, the capability is
called with that nonce and its output lands in the `DPoP` header. -/
theorem c5_witness :
    ((prepare pfEx initialDefaults ctxC5 noncesC5 optsBase argsC5).proofCalls
        = [{ htu := "https://op.example/token", htm := none, nonce := some "abc123" }]) ∧
    (hGet ((injectDPoP ctxC5 argsC5 noncesC5 urlTok
        { optsBase with url := none }).1.headers.getD []) "DPoP"
      = some (.s "proof-abc123")) := by
  obtain ⟨h1, h2, h3⟩ := c5_dpop_proof pfEx initialDefaults ctxC5 noncesC5 optsBase argsC5
      urlTok proofFn "keymaterial" rfl (Or.inr rfl) rfl rfl
  constructor
  · rw [h1]
    rfl
  · rw [h2]
    rfl

theorem prepareFinish_caller_url (options3 merged : OptRec) (url0 : URLRec)
    (proofCalls : List DpopPayload) (aliased : Bool) (args : CallArgs)
    (h3 : options3.url = none) :
    (prepareFinish options3 merged url0 proofCalls aliased args).callerOptions.url = none := by
  unfold prepareFinish
  split_ifs
  · exact h3
  · exact h3
  · exact h3

theorem prepareFinish_clean (options3 merged : OptRec) (url0 : URLRec)
    (proofCalls : List DpopPayload) (aliased : Bool) (args : CallArgs) (p : Prepared)
    (k : String)
    (ha : (prepareFinish options3 merged url0 proofCalls aliased args).mergedAliasesCaller
        = true)
    (hok : (prepareFinish options3 merged url0 proofCalls aliased args).result = .ok p) :
    hGet ((prepareFinish options3 merged url0 proofCalls aliased args).callerOptions.headers.getD [])
        k ≠ some .undef := by
  unfold prepareFinish at ha hok ⊢
  by_cases hm : (args.mTLS = true ∧ merged.pfx = none ∧ (merged.key = none ∨ merged.cert = none))
  · rw [if_pos hm] at hok
    exact absurd hok (by simp)
  · rw [if_neg hm] at ha ⊢
    have ha' : aliased = true := by simpa using ha
    rw [ha']
    exact hGet_clean_ne_undef _ _

theorem prepareChecked_caller_url (dflts : OptRec) (ctx : Ctx) (nonces : NonceCache)
    (url0 : URLRec) (options1 : OptRec) (args : CallArgs) (h1 : options1.url = none) :
    (prepareChecked dflts ctx nonces url0 options1 args).callerOptions.url = none := by
  simp only [prepareChecked]
  refine prepareFinish_caller_url _ _ _ _ _ _ ?_
  split
  · rw [hookMutateCaller_url, injectDPoP_url]
    exact h1
  · rw [injectDPoP_url]
    exact h1

theorem prepareChecked_clean (dflts : OptRec) (ctx : Ctx) (nonces : NonceCache)
    (url0 : URLRec) (options1 : OptRec) (args : CallArgs) (p : Prepared)
    (ha : (prepareChecked dflts ctx nonces url0 options1 args).mergedAliasesCaller = true)
    (hok : (prepareChecked dflts ctx nonces url0 options1 args).result = .ok p)
    (k : String) :
    hGet ((prepareChecked dflts ctx nonces url0 options1 args).callerOptions.headers.getD [])
        k ≠ some .undef := by
  simp only [prepareChecked] at ha hok ⊢
  exact prepareFinish_clean _ _ _ _ _ _ p k ha hok

/-! ## C10 -/

/-- C10 counterexample: with a customization hook that supplies its own
headers object, the undefined-valued entry `a` of the caller's headers
object is not removed: after the whole request it is still present with
value `undefined` (the removal ran on the hook's merged headers object
instead). -/
theorem c10_counterexample :
    hGet ((request pfEx initialDefaults ctxC10 [] optsC10 argsNone
        (.reply 200 [] [])).callerOptions.headers.getD []) "a"
      = some .undef := rfl

/-- C10 (amended): the request mutates the caller's options in place: once
URL parsing succeeded the `url` field is deleted from the caller's options
(on every path, including later failures); when DPoP applies, the generated
proof is written under `DPoP` into the caller's headers object before the
merge; and the undefined-valued header entries are removed from the caller's
headers object exactly when the merged options still alias it - that is,
when the hook did not supply headers of its own - in which case no
undefined-valued entry survives on the caller's object. -/
theorem c10_amended (pf : Platform) (dflts : OptRec) (ctx : Ctx) (nonces : NonceCache)
    (options : OptRec) (args : CallArgs) (url0 : URLRec)
    (hurl : options.url.bind pf.parseURL = some url0) :
    ((prepare pf dflts ctx nonces options args).callerOptions.url = none) ∧
    (∀ (f : DpopPayload → String → Option String → String) (keyMat : String),
      ctx.dpopProof = some f → args.DPoP = some keyMat →
      hGet ((injectDPoP ctx args nonces url0 { options with url := none }).1.headers.getD [])
          "DPoP"
        = some (.s (f { htu := url0.origin ++ url0.pathname, htm := options.method,
                        nonce := cacheGet nonces (url0.origin ++ url0.pathname) }
                      keyMat args.accessToken))) ∧
    ((prepare pf dflts ctx nonces options args).mergedAliasesCaller = true →
      ∀ p, (prepare pf dflts ctx nonces options args).result = .ok p →
      ∀ k, hGet ((prepare pf dflts ctx nonces options args).callerOptions.headers.getD []) k
        ≠ some .undef) := by
  refine ⟨?_, ?_, ?_⟩
  · unfold prepare
    simp only [hurl]
    split_ifs
    · exact prepareChecked_caller_url _ _ _ _ _ _ rfl
    · rfl
  · intro f keyMat hf hk
    simp only [injectDPoP, hf, hk]
    simp only [Option.getD_some]
    exact hGet_assign_self _ _ _
  · intro ha p hok k
    by_cases hproto : url0.protocol = "http:" ∨ url0.protocol = "https:"
    · rw [prepare_eq_checked pf dflts ctx nonces options args url0 hurl hproto] at ha hok ⊢
      exact prepareChecked_clean dflts ctx nonces url0 { options with url := none } args p
        ha hok k
    · unfold prepare at ha
      simp only [hurl] at ha
      rw [if_neg hproto] at ha
      exact absurd ha (by simp)

/-- C10 witness: the amended statement evaluated at the fixtures: the url is
deleted in the hook scenario; the DPoP proof lands in the caller's headers in
the capability scenario; and with no hook the caller's headers object keeps
no undefined-valued entry. -/
theorem c10_amended_witness :
    ((prepare pfEx initialDefaults ctxC10 [] optsC10 argsNone).callerOptions.url = none) ∧
    (hGet ((injectDPoP ctxC5 argsC5 noncesC5 urlTok
        { optsBase with url := none }).1.headers.getD []) "DPoP"
      = some (.s (proofFn { htu := "https://op.example/token", htm := none,
                            nonce := some "abc123" } "keymaterial" none))) ∧
    (hGet ((prepare pfEx initialDefaults ctxNone [] optsC10b argsNone).callerOptions.headers.getD [])
        "b" ≠ some .undef) := by
  refine ⟨(c10_amended pfEx initialDefaults ctxC10 [] optsC10 argsNone urlTok rfl).1, ?_, ?_⟩
  · exact (c10_amended pfEx initialDefaults ctxC5 noncesC5 optsBase argsC5 urlTok rfl).2.1
      proofFn "keymaterial" rfl rfl
  · exact (c10_amended pfEx initialDefaults ctxNone [] optsC10b argsNone urlTok rfl).2.2
      rfl pBase rfl "b"

end Req
